import Mathlib

/-!
Verification of the natural-language specification of the `git gc` /
`git maintenance` builtin (builtin/gc.c) against a shallow embedding of
its code in Lean.

The embedding translates the decision logic of gc.c.  Operating-system
facilities (directory listings, the pid file, `stat` results, hook exit
codes, the RAM probe, per-remote fetch exit codes) are inputs of the
model, collected in explicit state structures; all translated functions
are computable so that every claim can be evaluated on concrete inputs.
-/

/-- character list of the component after the last `/`. -/
def basenameAux : List Char → List Char → List Char
  | [], acc => acc
  | c :: rest, acc =>
    if c = '/' then basenameAux rest []
    else basenameAux rest (acc ++ [c])

/-- the last path component, as `basename(3)` used by `keep_one_pack` on
pack path names (pack names never end in a slash). -/
def basename (s : String) : String :=
  String.mk (basenameAux s.data [])

/-- `tolower` on one ASCII character, as `strcasecmp` applies it. -/
def asciiLower (c : Char) : Char :=
  if 'A' ≤ c ∧ c ≤ 'Z' then Char.ofNat (c.toNat + 32) else c

/-- case-insensitive string equality: `strcasecmp(a, b) == 0`. -/
def strcaseEq (a b : String) : Bool :=
  a.data.map asciiLower = b.data.map asciiLower

/-- a packfile as seen by gc.c: `struct packed_git` restricted to the
fields gc.c reads (`pack_name`, `pack_size`, `index_size`, `pack_local`,
`pack_keep`). -/
structure Pack where
  name : String
  size : Nat
  indexSize : Nat
  isLocal : Bool
  isKeep : Bool
deriving DecidableEq

/-- one argv entry pushed onto the `repack` command by gc.c.  Each
constructor corresponds to one `argv_array_push` format string:
`"-a"`, `"-A"`, `"--unpack-unreachable=%s"`, `"--keep-pack=%s"`,
`"--no-write-bitmap-index"`. -/
inductive RepackArg where
  | allNow : RepackArg
  | allA : RepackArg
  | unpackUnreachable : String → RepackArg
  | keepPack : String → RepackArg
  | noWriteBitmapIndex : RepackArg
deriving DecidableEq

/-- the repository / configuration state read by `need_to_gc` and its
callees.  `dir17` is the listing of the single sampled fan-out directory
`objects/17` (`none` when `opendir` fails), `hexszLoose` is
`the_hash_algo->hexsz - 2`, `totalRam` is the result of the `total_ram()`
probe (`0` when the probe has no answer), `nrObjects` is
`approximate_object_count()`, the `sz*` fields are the platform `sizeof`
constants used by `estimate_repack_memory`, and `hookExit` is the exit
status of the `pre-auto-gc` hook. -/
structure GcState where
  packs : List Pack
  gcAuto : Int
  gcAutoPackLimit : Int
  bigPackThreshold : Nat
  pruneExpire : Option String
  dir17 : Option (List String)
  hexszLoose : Nat
  totalRam : Nat
  nrObjects : Nat
  szObjectEntry : Nat
  szBlob : Nat
  szTree : Nat
  szObjPtr : Nat
  szRevindexEntry : Nat
  deltaBaseCacheLimit : Nat
  maxDeltaCacheSize : Nat
  hookExit : Nat

/-- the sixteen lowercase hex digits of the `strspn` set in
`too_many_loose_objects`. -/
def isHexDigitChar (c : Char) : Bool :=
  c ∈ "0123456789abcdef".toList

/-- `strspn(name, "0123456789abcdef")`: length of the initial run of hex
digits of `name`. -/
def hexSpan (name : String) : Nat :=
  (name.toList.takeWhile isHexDigitChar).length

/-- the filename filter of `too_many_loose_objects`:
`strspn(ent->d_name, "0123456789abcdef") != hexsz_loose ||
 ent->d_name[hexsz_loose] != '\0'` skips the entry; for a C string the
second condition is `length = hexsz_loose`. -/
def looseMatch (hexszLoose : Nat) (name : String) : Bool :=
  hexSpan name = hexszLoose && name.length = hexszLoose

/-- the counting loop of `too_many_loose_objects`: walks the directory
entries, incrementing `numLoose` per matching name, and stops with
`needed = 1` as soon as the count exceeds `autoThreshold`. -/
def looseLoop (hexszLoose : Nat) (autoThreshold : Nat) (numLoose : Nat) :
    List String → Bool
  | [] => false
  | e :: rest =>
    if looseMatch hexszLoose e then
      if numLoose + 1 > autoThreshold then true
      else looseLoop hexszLoose autoThreshold (numLoose + 1) rest
    else looseLoop hexszLoose autoThreshold numLoose rest

/-- `too_many_loose_objects`: opens only `objects/17` (returning 0 when
`opendir` fails), computes `auto_threshold = DIV_ROUND_UP(gc_auto_threshold,
256)` and runs the counting loop.  `DIV_ROUND_UP` is modelled on
`gcAuto.toNat`; for `gcAuto ≤ 0` C's truncating division yields a
threshold `≤ 0` and the loop sets `needed` only after at least one match,
so the observable result coincides. -/
def too_many_loose_objects (dir17 : Option (List String)) (gcAuto : Int)
    (hexszLoose : Nat) : Bool :=
  match dir17 with
  | none => false
  | some entries =>
    looseLoop hexszLoose ((gcAuto.toNat + 255) / 256) 0 entries

/-- `too_many_packs`: counts local packs without a `.keep` file; true when
the count strictly exceeds `gc.autoPackLimit` (and false whenever the
limit is `≤ 0`). -/
def too_many_packs (s : GcState) : Bool :=
  if s.gcAutoPackLimit ≤ 0 then false
  else s.gcAutoPackLimit <
    ((s.packs.filter (fun p => p.isLocal && !p.isKeep)).length : Int)

/-- the loop of `find_base_packs`: with a nonzero `limit` every local pack
of size `≥ limit` is appended to the keep list and `base` stays NULL; with
`limit = 0` the largest local pack is tracked (first one wins ties) and
appended at the end. -/
def find_base_loop (limit : Nat) : List Pack → List String → Option Pack →
    List String × Option Pack
  | [], acc, base =>
    (acc ++ (match base with | some b => [b.name] | none => []), base)
  | p :: rest, acc, base =>
    if !p.isLocal then find_base_loop limit rest acc base
    else if limit ≠ 0 then
      find_base_loop limit rest
        (if p.size ≥ limit then acc ++ [p.name] else acc) base
    else
      find_base_loop limit rest acc
        (match base with
         | none => some p
         | some b => if b.size < p.size then some p else some b)

/-- `find_base_packs(r, packs, limit)`: returns the names appended to the
keep list together with the returned base pack. -/
def find_base_packs (packs : List Pack) (limit : Nat) :
    List String × Option Pack :=
  find_base_loop limit packs [] none

/-- `estimate_repack_memory`: 0 without a pack or without objects,
otherwise OS cache for the pack plus the book-keeping heap estimate. -/
def estimate_repack_memory (s : GcState) (pack : Option Pack) : Nat :=
  match pack with
  | none => 0
  | some p =>
    if s.nrObjects = 0 then 0
    else
      let osCache := p.size + p.indexSize
      let heap := s.szObjectEntry * s.nrObjects
        + s.szBlob * s.nrObjects / 2
        + s.szTree * s.nrObjects / 2
        + s.szObjPtr * s.nrObjects
        + s.szRevindexEntry * s.nrObjects
        + s.deltaBaseCacheLimit
        + s.maxDeltaCacheSize
      osCache + heap

/-- `add_repack_all_option`: `-a` when `gc.pruneExpire` is `now`,
otherwise `-A` plus `--unpack-unreachable=<expiry>` when an expiry is
set; then one `--keep-pack=basename(name)` per keep-list entry. -/
def add_repack_all_option (pruneExpire : Option String)
    (keepPack : List String) : List RepackArg :=
  (if pruneExpire = some "now" then [RepackArg.allNow]
   else RepackArg.allA ::
     (match pruneExpire with
      | some e => [RepackArg.unpackUnreachable e]
      | none => [])) ++
  keepPack.map (fun n => RepackArg.keepPack (basename n))

/-- `add_repack_incremental_option`: pushes `--no-write-bitmap-index`. -/
def add_repack_incremental_option : List RepackArg :=
  [RepackArg.noWriteBitmapIndex]

/-- the keep-pack list chosen by `need_to_gc` on its too-many-packs
branch: with a nonzero `gc.bigPackThreshold` all packs at least that
large (falling back to just the base pack when that keeps no fewer packs
than `gc.autoPackLimit`); otherwise the base pack, discarded again unless
the RAM probe answered and the estimate reaches half of it
(`!mem_have || mem_want < mem_have / 2` clears the list). -/
def need_to_gc_keep (s : GcState) : List String :=
  if s.bigPackThreshold ≠ 0 then
    let kp := (find_base_packs s.packs s.bigPackThreshold).1
    if (kp.length : Int) ≥ s.gcAutoPackLimit then
      (find_base_packs s.packs 0).1
    else kp
  else
    let fb := find_base_packs s.packs 0
    let memHave := s.totalRam
    let memWant := estimate_repack_memory s fb.2
    if memHave = 0 ∨ memWant < memHave / 2 then [] else fb.1

/-- `need_to_gc`: returns the boolean result together with the options
appended to the `repack` argv.  Disabled for `gc.auto ≤ 0`; the
too-many-packs branch prepares an all-repack with the keep list above,
the too-many-loose branch an incremental repack, and both fall through to
the `pre-auto-gc` hook, whose nonzero exit forces the result to false
(the argv pushes have already happened); with neither trigger the
function returns 0 directly. -/
def need_to_gc (s : GcState) : Bool × List RepackArg :=
  if s.gcAuto ≤ 0 then (false, [])
  else
    let triggered : Option (List RepackArg) :=
      if too_many_packs s then
        some (add_repack_all_option s.pruneExpire (need_to_gc_keep s))
      else if too_many_loose_objects s.dir17 s.gcAuto s.hexszLoose then
        some add_repack_incremental_option
      else none
    match triggered with
    | none => (false, [])
    | some args => if s.hookExit ≠ 0 then (false, args) else (true, args)

/-! ### The gc.pid lock (`lock_repo_for_gc`) -/

/-- outcome of `kill(pid, 0)` as gc.c inspects it: success, failure with
`errno == EPERM`, or any other failure (e.g. `ESRCH`, a dead pid). -/
inductive KillRes where
  | ok : KillRes
  | eperm : KillRes
  | dead : KillRes
deriving DecidableEq

/-- the existing `gc.pid` file as `lock_repo_for_gc` observes it:
its mtime (`fstat` on the opened stream; the model folds a successful
`fstat` into the file being open) and the result of
`fscanf(fp, "%PRIuMAX %s", &pid, locking_host)`, which is `some (pid,
host)` exactly when the scan matched both fields. -/
structure PidFileView where
  mtime : Int
  parsed : Option (Nat × String)

/-- environment of a `lock_repo_for_gc` call: whether our own pid file is
already active, the local hostname, the existing pid file (if `fopen`
succeeds), the current `time(NULL)`, and the behaviour of `kill(pid, 0)`
per pid. -/
structure LockEnv where
  alreadyLocked : Bool
  myHost : String
  pidFile : Option PidFileView
  now : Int
  kill : Nat → KillRes

/-- `lock_repo_for_gc`: `none` means the lock was (or already is) held by
this process and gc proceeds; `some (host, pid)` is the early return with
the other runner's host and pid.  Without `--force`, `should_exit` is the
conjunction from the code: open pid file, mtime at most 12 hours old,
successful two-field scan, and (host differs, or `kill` succeeds, or
`errno == EPERM`). -/
def lock_repo_for_gc (force : Bool) (env : LockEnv) :
    Option (String × Nat) :=
  if env.alreadyLocked then none
  else if force then none
  else
    match env.pidFile with
    | none => none
    | some f =>
      if env.now - f.mtime ≤ 12 * 3600 then
        match f.parsed with
        | none => none
        | some (pid, host) =>
          if host ≠ env.myHost ∨ env.kill pid = KillRes.ok ∨
             env.kill pid = KillRes.eperm then
            some (host, pid)
          else none
      else none

/-- Modelled from the spec's words for claim C3: the repository is held
by another live run iff the pid file parsed, its mtime is within 12 hours
of now, and the host differs or the pid is alive (`kill` succeeded or
failed with `EPERM`); in that case the holder's host and pid are
reported. -/
def heldByOtherSpec (env : LockEnv) : Option (String × Nat) :=
  match env.pidFile with
  | none => none
  | some f =>
    match f.parsed with
    | none => none
    | some (pid, host) =>
      if env.now - f.mtime ≤ 12 * 3600 ∧
         (host ≠ env.myHost ∨ env.kill pid = KillRes.ok ∨
          env.kill pid = KillRes.eperm) then
        some (host, pid)
      else none

/-! ### The previous-failure gate (`report_last_gc_error` and `cmd_gc`) -/

/-- result of `stat("gc.log")`: missing file, an I/O error, or success
with the file's mtime. -/
inductive StatRes where
  | enoent : StatRes
  | ioerr : StatRes
  | ok : Int → StatRes
deriving DecidableEq

/-- the `gc.log` file as `report_last_gc_error` observes it: the `stat`
result and the outcome of `strbuf_read_file` (`none` models a negative
return, i.e. a read error; `some s` the file contents). -/
structure GcLogView where
  stat : StatRes
  readResult : Option String

/-- `report_last_gc_error`: 0 lets gc proceed, 1 reports the previous
failure (after warning with the log's contents), -1 is an error while
statting or reading `gc.log`.  An expired mtime (`st.st_mtime <
gc_log_expire_time`) short-circuits to 0 before any read. -/
def report_last_gc_error (log : GcLogView) (gcLogExpireTime : Int) : Int :=
  match log.stat with
  | StatRes.enoent => 0
  | StatRes.ioerr => -1
  | StatRes.ok mtime =>
    if mtime < gcLogExpireTime then 0
    else
      match log.readResult with
      | none => -1
      | some s => if s.length > 0 then 1 else 0

/-- what `cmd_gc` does with `report_last_gc_error` on the
`--auto`-with-detach path. -/
inductive GateOutcome where
  | exit128 : GateOutcome
  | stop0 : GateOutcome
  | proceed : GateOutcome
deriving DecidableEq

/-- the `if (detach_auto)` block of `cmd_gc` under `--auto`: `ret < 0`
exits with status 128, `ret == 1` returns 0 without doing any work,
otherwise the run proceeds (locking, daemonizing, repacking). -/
def auto_detach_gate (log : GcLogView) (gcLogExpireTime : Int) :
    GateOutcome :=
  let ret := report_last_gc_error log gcLogExpireTime
  if ret < 0 then GateOutcome.exit128
  else if ret = 1 then GateOutcome.stop0
  else GateOutcome.proceed

/-- Modelled from the spec's words for claim C7: a non-empty `gc.log`
with mtime at or after the expiry horizon warns and exits 0; an I/O error
while statting or reading exits 128; an absent, empty or expired log lets
the run proceed. -/
def autoDetachGateSpec (log : GcLogView) (gcLogExpireTime : Int) :
    GateOutcome :=
  match log.stat with
  | StatRes.enoent => GateOutcome.proceed
  | StatRes.ioerr => GateOutcome.exit128
  | StatRes.ok mtime =>
    if mtime < gcLogExpireTime then GateOutcome.proceed
    else
      match log.readResult with
      | none => GateOutcome.exit128
      | some s =>
        if s.length = 0 then GateOutcome.proceed else GateOutcome.stop0

/-! ### `git maintenance run` -/

/-- a `struct maintenance_task`: its name, whether an `auto_condition`
function is present and what it returns on this repository (`none` models
a NULL `auto_condition` pointer, `some b` a function returning nonzero
iff `b`), the `enabled` bit, and the selection state set by `--task`
parsing (`selected`, `task_order`). -/
structure MTask where
  name : String
  auto : Option Bool
  enabled : Bool
  selected : Bool
  taskOrder : Int
deriving DecidableEq

/-- `compare_tasks_by_selection` as evidently intended: compare the two
tasks' `task_order` fields, `return b->task_order - a->task_order`.
(The C function actually casts the qsort element pointer — of type
`struct maintenance_task **`, since `tasks` is an array of pointers —
directly to `struct maintenance_task *`, so it reads indeterminate bytes
of the pointer array instead of the tasks' fields; the model charitably
compares the pointed-to tasks.) -/
def compare_tasks_by_selection (a b : MTask) : Int :=
  b.taskOrder - a.taskOrder

/-- stable insertion of a task into a list sorted by
`compare_tasks_by_selection` (the model of `QSORT`; the spec calls the
sort stable, and among selected tasks all ordinals are distinct). -/
def insert_by_selection (t : MTask) : List MTask → List MTask
  | [] => [t]
  | x :: xs =>
    if compare_tasks_by_selection t x ≤ 0 then t :: x :: xs
    else x :: insert_by_selection t xs

/-- the `QSORT(tasks, num_tasks, compare_tasks_by_selection)` call as a
stable sort. -/
def sort_tasks (ts : List MTask) : List MTask :=
  ts.foldr insert_by_selection []

/-- the three `continue` conditions of the task loop in
`maintenance_run`: skip unselected tasks when `--task` was given, skip
disabled tasks otherwise, and under `--auto` skip tasks with no
`auto_condition` function or whose condition returns 0. -/
def task_skipped (autoFlag selMode : Bool) (t : MTask) : Bool :=
  (selMode && !t.selected) ||
  (!selMode && !t.enabled) ||
  (autoFlag && (decide (t.auto = none) || decide (t.auto = some false)))

/-- the task loop of `maintenance_run`: processes tasks in order, skipping
per `task_skipped`, and stops at the first task whose function fails.
Returns the result together with the names of the tasks that ran, in
order. -/
def maintenance_run_loop (autoFlag selMode : Bool) (fnRes : String → Int) :
    List MTask → Int × List String
  | [] => (0, [])
  | t :: rest =>
    if task_skipped autoFlag selMode t then
      maintenance_run_loop autoFlag selMode fnRes rest
    else
      let r := fnRes t.name
      if r ≠ 0 then (r, [t.name])
      else
        let rec' := maintenance_run_loop autoFlag selMode fnRes rest
        (rec'.1, t.name :: rec'.2)

/-- `maintenance_run` (with the object-directory lock acquired): sorts the
tasks by selection when `opts.tasks_selected` is nonzero, then runs the
loop. -/
def maintenance_run (autoFlag : Bool) (tasksSelected : Nat)
    (fnRes : String → Int) (ts : List MTask) : Int × List String :=
  let ts' := if tasksSelected ≠ 0 then sort_tasks ts else ts
  maintenance_run_loop autoFlag (tasksSelected ≠ 0) fnRes ts'

/-- the C `initialize_tasks` function: the five tasks in registration order — fetch
(no `auto_condition`), loose-objects, pack-files, gc (the only one enabled
by default; its condition is `need_to_gc`), commit-graph — with `enabled`
overridden by `maintenance.<name>.enabled` from the config.  The
`auto_condition` results on this repository are passed in as
`aLoose`, `aPack`, `aGc`, `aCg`. -/
def init_tasks (cfg : String → Option Bool)
    (aLoose aPack aGc aCg : Bool) : List MTask :=
  let mk := fun (name : String) (auto : Option Bool) (dflt : Bool) =>
    { name := name, auto := auto,
      enabled := (cfg ("maintenance." ++ name ++ ".enabled")).getD dflt,
      selected := false, taskOrder := 0 : MTask }
  [ mk "fetch" none false,
    mk "loose-objects" (some aLoose) false,
    mk "pack-files" (some aPack) false,
    mk "gc" (some aGc) true,
    mk "commit-graph" (some aCg) false ]

/-- `task_option_parse` for one `--task=<arg>`: increments
`opts.tasks_selected`, looks the name up case-insensitively (the task
hashmap hashes with `strihash` and compares with `strcasecmp`), rejects
an empty value, an unknown name, and a task already selected; on success
marks the task selected with the current 1-based ordinal.  `none` models
the `error(...); return 1` paths, which make `parse_options` abort with a
usage error. -/
def task_option_parse (ts : List MTask) (tasksSelected : Nat)
    (arg : String) : Option (List MTask × Nat) :=
  if arg = "" then none
  else
    match ts.find? (fun t => strcaseEq t.name arg) with
    | none => none
    | some t =>
      if t.selected then none
      else
        some (ts.map (fun u =>
          if u.name = t.name then
            { u with selected := true, taskOrder := (tasksSelected + 1 : Int) }
          else u), tasksSelected + 1)

/-- folds `task_option_parse` over a sequence of `--task` arguments; any
error aborts the whole parse (usage error). -/
def parse_task_options (ts : List MTask) (tasksSelected : Nat) :
    List String → Option (List MTask × Nat)
  | [] => some (ts, tasksSelected)
  | a :: rest =>
    match task_option_parse ts tasksSelected a with
    | none => none
    | some (ts', n') => parse_task_options ts' n' rest

/-! ### The fetch task (`maintenance_task_fetch`) -/

/-- the fetch loop of `maintenance_task_fetch`: calls `fetch_remote` for
every configured remote; each child's exit status is recorded but —
deliberately, per the comment in the code — never merged into the task
result. -/
def fetch_loop (fetchExit : String → Int) : List String → List Int
  | [] => []
  | r :: rest => fetchExit r :: fetch_loop fetchExit rest

/-- `maintenance_task_fetch`: returns 1 if `for_each_remote` fails to
enumerate the remotes (`remotes = none`), otherwise fetches every remote
in turn and returns 0; the second component lists the children's exit
statuses, one per remote, in order. -/
def maintenance_task_fetch (fetchExit : String → Int)
    (remotes : Option (List String)) : Int × List Int :=
  match remotes with
  | none => (1, [])
  | some l => (0, fetch_loop fetchExit l)

/-! ### `get_auto_pack_size` -/

/-- the `TWO_GIGABYTES` macro: `2147483647`, i.e. 2 GiB − 1. -/
def TWO_GIGABYTES : Nat := 2147483647

/-- the loop body of `get_auto_pack_size`: update the pair
`(max_size, second_largest_size)` with one pack size. -/
def top_two_step (acc : Nat × Nat) (sz : Nat) : Nat × Nat :=
  if acc.1 < sz then (sz, acc.1)
  else if acc.2 < sz then (acc.1, sz)
  else acc

/-- `get_auto_pack_size`: walks all pack sizes tracking the two largest,
returns `second_largest_size + 1` capped at `TWO_GIGABYTES`. -/
def get_auto_pack_size (sizes : List Nat) : Nat :=
  let acc := sizes.foldl top_two_step (0, 0)
  let resultSize := acc.2 + 1
  if resultSize > TWO_GIGABYTES then TWO_GIGABYTES else resultSize

/-- the largest element of a list of sizes (0 when empty). -/
def listMax (l : List Nat) : Nat := l.foldr max 0

/-- Modelled from the spec's words for claim C4: the second-largest size
of the multiset — the largest value of `min a b` over pairs taken at two
distinct positions (0 when fewer than two sizes).  This is symmetric in
the list order by construction. -/
def secondLargest : List Nat → Nat
  | [] => 0
  | x :: xs => max (min x (listMax xs)) (secondLargest xs)

/-! ### Concrete repository states used as inputs of the claims -/

/-- a small local pack. -/
def pSmall : Pack :=
  { name := "small.pack", size := 1, indexSize := 0,
    isLocal := true, isKeep := false }

/-- the largest local pack of the C2 state. -/
def pBig : Pack :=
  { name := "big.pack", size := 2, indexSize := 0,
    isLocal := true, isKeep := false }

/-- state for claim C2: two local packs over a pack limit of 1,
`gc.bigPackThreshold = 0`, an estimated working set of exactly half the
probed RAM (estimate 2, RAM 4). -/
def stateC2 : GcState :=
  { packs := [pSmall, pBig], gcAuto := 6700, gcAutoPackLimit := 1,
    bigPackThreshold := 0, pruneExpire := some "now", dir17 := none,
    hexszLoose := 38, totalRam := 4, nrObjects := 1, szObjectEntry := 0,
    szBlob := 0, szTree := 0, szObjPtr := 0, szRevindexEntry := 0,
    deltaBaseCacheLimit := 0, maxDeltaCacheSize := 0, hookExit := 0 }

/-- the `i`-th lowercase hex digit. -/
def hexDigit (i : Nat) : Char :=
  "0123456789abcdef".toList.getD i '0'

/-- a loose-object filename for SHA-1 (38 characters inside the fan-out
bucket): 35 zeroes followed by three hex digits encoding `i`. -/
def looseName (i : Nat) : String :=
  String.mk (List.replicate 35 '0' ++
    [hexDigit (i / 256 % 16), hexDigit (i / 16 % 16), hexDigit (i % 16)])

/-- a listing of the `objects/17` bucket with 260 distinct loose-object
names. -/
def entries260 : List String :=
  (List.range 260).map looseName

/-- state for claim C5: 260 loose objects in the sampled bucket,
`gc.auto = 6700`, not too many packs. -/
def stateC5 : GcState :=
  { packs := [], gcAuto := 6700, gcAutoPackLimit := 50,
    bigPackThreshold := 0, pruneExpire := some "now",
    dir17 := some entries260, hexszLoose := 38, totalRam := 0,
    nrObjects := 0, szObjectEntry := 0, szBlob := 0, szTree := 0,
    szObjPtr := 0, szRevindexEntry := 0, deltaBaseCacheLimit := 0,
    maxDeltaCacheSize := 0, hookExit := 0 }

/-- state for claim C6's witness: `gc.auto = 0`. -/
def stateC6 : GcState :=
  { packs := [pSmall, pBig], gcAuto := 0, gcAutoPackLimit := 1,
    bigPackThreshold := 0, pruneExpire := some "now",
    dir17 := some entries260, hexszLoose := 38, totalRam := 4,
    nrObjects := 1, szObjectEntry := 0, szBlob := 0, szTree := 0,
    szObjPtr := 0, szRevindexEntry := 0, deltaBaseCacheLimit := 0,
    maxDeltaCacheSize := 0, hookExit := 0 }

/-- state for claim C10's witness: the sampled bucket cannot be opened
and the pack trigger is off. -/
def stateC10 : GcState :=
  { packs := [], gcAuto := 6700, gcAutoPackLimit := 50,
    bigPackThreshold := 0, pruneExpire := some "now", dir17 := none,
    hexszLoose := 38, totalRam := 0, nrObjects := 0, szObjectEntry := 0,
    szBlob := 0, szTree := 0, szObjPtr := 0, szRevindexEntry := 0,
    deltaBaseCacheLimit := 0, maxDeltaCacheSize := 0, hookExit := 0 }

/-- the initial task table with default configuration and all auto
conditions false (they are irrelevant without `--auto`). -/
def tasksC1 : List MTask :=
  init_tasks (fun _ => none) false false false false

/-- the task table and selection counter after
`--task loose-objects --task gc`. -/
def selC1 : List MTask × Nat :=
  (parse_task_options tasksC1 0 ["loose-objects", "gc"]).getD ([], 0)

/-- the task table and selection counter after `--task fetch`, with the
gc auto condition true, for claim C9's witness. -/
def selFetchC9 : List MTask × Nat :=
  (parse_task_options
    (init_tasks (fun _ => none) false false false true) 0 ["fetch"]).getD
    ([], 0)

/-- a lock environment for claim C3's witness: a pid file written 10
minutes ago by pid 123 on host `beta`, observed from host `alpha`. -/
def lockEnvC3 : LockEnv :=
  { alreadyLocked := false, myHost := "alpha",
    pidFile := some { mtime := 1000, parsed := some (123, "beta") },
    now := 1600, kill := fun _ => KillRes.dead }

/-! ## Theorems -/

/-- helper: `fetch_loop` produces one exit status per remote. -/
theorem fetch_loop_length (f : String → Int) (l : List String) :
    (fetch_loop f l).length = l.length := by
  induction l with
  | nil => rfl
  | cons r rest ih => simp [fetch_loop, ih]

/-- C3: `lock_repo_for_gc` without `--force` (on a run that does not
already hold its own pid file) reports the repository as held by another
live run — returning the recorded host and pid — if and only if the pid
file parses as `<pid> <host>`, its mtime is within 12 hours of now
(`time(NULL) - st.st_mtime <= 12 * 3600`), and the recorded host differs
from the local host or `kill(pid, 0)` succeeds or fails with `EPERM`; a
pid file older than 12 hours, or recording a dead pid on the local host,
is reclaimed. -/
theorem claim_C3_lock_liveness (env : LockEnv)
    (h : env.alreadyLocked = false) :
    lock_repo_for_gc false env = heldByOtherSpec env := by
  obtain ⟨al, myHost, pf, now, kl⟩ := env
  simp only at h
  subst h
  unfold lock_repo_for_gc heldByOtherSpec
  cases pf with
  | none => simp
  | some f =>
    obtain ⟨mt, parsed⟩ := f
    cases parsed with
    | none =>
      by_cases ht : now - mt ≤ 12 * 3600 <;> simp [ht]
    | some pr =>
      obtain ⟨pid, host⟩ := pr
      by_cases ht : now - mt ≤ 12 * 3600 <;>
        by_cases hl : host ≠ myHost ∨ kl pid = KillRes.ok ∨
          kl pid = KillRes.eperm <;>
        simp [ht, hl]

/-- C3 witness: a ten-minute-old pid file naming a different host is
reported as held even though the pid is not alive locally. -/
theorem claim_C3_lock_liveness_witness :
    lockEnvC3.alreadyLocked = false ∧
    lock_repo_for_gc false lockEnvC3 = heldByOtherSpec lockEnvC3 :=
  ⟨rfl, claim_C3_lock_liveness lockEnvC3 rfl⟩

/-- C6: `need_to_gc` returns false whenever `gc.auto ≤ 0`, regardless of
any other repository state; and a nonzero exit of the `pre-auto-gc` hook
makes it return false as well (in particular whenever the pack-count or
loose-object trigger would otherwise have made it return true). -/
theorem claim_C6_auto_disable_and_hook (s : GcState)
    (h : s.gcAuto ≤ 0 ∨ s.hookExit ≠ 0) :
    (need_to_gc s).1 = false := by
  unfold need_to_gc
  rcases h with h | h
  · simp [h]
  · by_cases ha : s.gcAuto ≤ 0
    · simp [ha]
    · by_cases hp : too_many_packs s = true
      · simp [ha, hp, h]
      · by_cases hl :
          too_many_loose_objects s.dir17 s.gcAuto s.hexszLoose = true <;>
          simp [ha, hp, hl, h]

/-- C6 witness: with `gc.auto = 0` the state that otherwise triggers both
the pack and loose probes still yields false. -/
theorem claim_C6_auto_disable_and_hook_witness :
    (stateC6.gcAuto ≤ 0 ∨ stateC6.hookExit ≠ 0) ∧
    (need_to_gc stateC6).1 = false :=
  ⟨Or.inl (by decide), claim_C6_auto_disable_and_hook stateC6
    (Or.inl (by decide))⟩

/-- C7: under `gc --auto` with detach enabled, the previous-failure gate
classifies exactly as the spec says: a non-empty `gc.log` with mtime at
or after the `gc.logExpiry` horizon stops the run with exit 0 (after
warning with the log's contents), an I/O error while statting or reading
`gc.log` exits with status 128, and an absent, empty, or expired log
lets the run proceed. -/
theorem claim_C7_previous_failure_gate (log : GcLogView) (e : Int) :
    auto_detach_gate log e = autoDetachGateSpec log e := by
  obtain ⟨st, rd⟩ := log
  cases st with
  | enoent => rfl
  | ioerr => rfl
  | ok m =>
    unfold auto_detach_gate report_last_gc_error autoDetachGateSpec
    by_cases hm : m < e
    · simp [hm]
    · cases rd with
      | none => simp [hm]
      | some s =>
        by_cases hs : s.length > 0
        · have : s.length ≠ 0 := by omega
          simp [hm, hs, this]
        · have : s.length = 0 := by omega
          simp [hm, hs, this]

/-- C8: the fetch maintenance task returns success regardless of the exit
status of any per-remote fetch child — every configured remote is
fetched (one child per remote, in order) and the task result stays 0 —
while a failure to enumerate the remotes returns 1 without fetching. -/
theorem claim_C8_fetch_tolerates_failures :
    ∀ (fetchExit : String → Int) (remotes : List String),
      (maintenance_task_fetch fetchExit (some remotes)).1 = 0 ∧
      (maintenance_task_fetch fetchExit (some remotes)).2.length =
        remotes.length ∧
      maintenance_task_fetch fetchExit none = (1, []) :=
  fun f l => ⟨rfl, fetch_loop_length f l, rfl⟩

/-- C10: when the sampled fan-out directory `objects/17` cannot be
opened, `too_many_loose_objects` returns 0 whatever the threshold, so
with the pack trigger off `need_to_gc` cannot fire through the
loose-object probe. -/
theorem claim_C10_missing_bucket :
    (∀ (gcAuto : Int) (hexszLoose : Nat),
      too_many_loose_objects none gcAuto hexszLoose = false) ∧
    (∀ s : GcState, s.dir17 = none → too_many_packs s = false →
      need_to_gc s = (false, [])) := by
  constructor
  · intro a hsz; rfl
  · intro s hdir hp
    unfold need_to_gc
    by_cases ha : s.gcAuto ≤ 0
    · simp [ha]
    · simp [ha, hp, hdir, too_many_loose_objects]

/-- C10 witness: a state whose `objects/17` cannot be opened yields no
gc, with no repack options queued. -/
theorem claim_C10_missing_bucket_witness :
    (stateC10.dir17 = none ∧ too_many_packs stateC10 = false) ∧
    need_to_gc stateC10 = (false, []) :=
  ⟨⟨rfl, by decide⟩, claim_C10_missing_bucket.2 stateC10 rfl (by decide)⟩

/-- helper: the counting loop of `too_many_loose_objects` reports iff the
final count exceeds the threshold (provided the running count has not
exceeded it yet). -/
theorem looseLoop_iff (hsz t : Nat) (es : List String) :
    ∀ n, n ≤ t →
      (looseLoop hsz t n es = true ↔ t < n + es.countP (looseMatch hsz)) := by
  induction es with
  | nil =>
    intro n hn
    simp only [looseLoop, List.countP_nil]
    constructor
    · intro h; cases h
    · intro h; omega
  | cons e rest ih =>
    intro n hn
    have step : looseLoop hsz t n (e :: rest) =
        if looseMatch hsz e = true then
          (if n + 1 > t then true else looseLoop hsz t (n + 1) rest)
        else looseLoop hsz t n rest := rfl
    rw [step, List.countP_cons]
    by_cases hm : looseMatch hsz e = true
    · rw [if_pos hm, if_pos hm]
      by_cases hgt : n + 1 > t
      · rw [if_pos hgt]
        constructor
        · intro _; omega
        · intro _; rfl
      · rw [if_neg hgt, ih (n + 1) (by omega)]
        omega
    · rw [if_neg hm, if_neg hm, ih n hn]
      omega

set_option maxRecDepth 8000 in
/-- C5: the loose-object density probe examines only the single sampled
bucket (the model's `dir17` input is the listing of `objects/17`), counts
exactly the entries whose filename is `hexsz - 2` hex digits
(`looseMatch`), and reports "too loose" iff that count exceeds
`DIV_ROUND_UP(gc.auto, 256)`; with 260 such entries and `gc.auto = 6700`
(threshold 27), `need_to_gc` is true and queues exactly
`--no-write-bitmap-index` on the repack command. -/
theorem claim_C5_loose_probe :
    (∀ (entries : List String) (gcAuto : Int) (hexszLoose : Nat),
      too_many_loose_objects (some entries) gcAuto hexszLoose = true ↔
        (gcAuto.toNat + 255) / 256 <
          entries.countP (looseMatch hexszLoose)) ∧
    entries260.countP (looseMatch 38) = 260 ∧
    (6700 + 255) / 256 = 27 ∧
    need_to_gc stateC5 = (true, [RepackArg.noWriteBitmapIndex]) := by
  refine ⟨?_, by decide, by decide, by decide⟩
  intro entries gcAuto hexszLoose
  unfold too_many_loose_objects
  rw [looseLoop_iff hexszLoose _ entries 0 (Nat.zero_le _)]
  omega

/-- helper: with `limit = 0` the keep list produced by `find_base_loop`
is the accumulator followed by the name of the final base pack. -/
theorem find_base_loop_zero (packs : List Pack) :
    ∀ (acc : List String) (base : Option Pack),
      find_base_loop 0 packs acc base =
        (acc ++ (match (find_base_loop 0 packs [] base).2 with
                 | some b => [b.name]
                 | none => []),
         (find_base_loop 0 packs [] base).2) := by
  induction packs with
  | nil =>
    intro acc base
    cases base <;> rfl
  | cons p rest ih =>
    intro acc base
    have step : ∀ (a : List String) (b : Option Pack),
        find_base_loop 0 (p :: rest) a b =
          if !p.isLocal then find_base_loop 0 rest a b
          else find_base_loop 0 rest a
            (match b with
             | none => some p
             | some q => if q.size < p.size then some p else some q) := by
      intro a b
      by_cases hl : p.isLocal = true <;>
        simp only [find_base_loop, hl, Bool.not_true, Bool.not_false,
          Bool.false_eq_true, if_false, if_true, ne_eq,
          not_true_eq_false, reduceIte, Bool.not_eq_true]
    by_cases hl : p.isLocal = true
    · rw [step acc base, step [] base]
      simp only [hl, Bool.not_true, Bool.false_eq_true, if_false]
      rw [ih acc, ih []]
    · rw [step acc base, step [] base]
      simp only [Bool.not_eq_true', Bool.not_eq_true] at hl
      simp only [hl, Bool.not_false, if_true]
      rw [ih acc, ih []]

/-- helper: when `find_base_packs` with `limit = 0` returns a base pack,
the keep list it filled is exactly that pack's name. -/
theorem find_base_keep_of_base (packs : List Pack) (P : Pack)
    (h : (find_base_packs packs 0).2 = some P) :
    (find_base_packs packs 0).1 = [P.name] := by
  have h2 := congrArg Prod.fst (find_base_loop_zero packs [] none)
  simp only [find_base_packs] at h ⊢
  rw [h2]
  simp [h]

/-- helper: a `--keep-pack` option appears among the options pushed by
`add_repack_all_option` exactly for the basenames of the keep list. -/
theorem keepPack_mem_add_repack (pe : Option String) (keep : List String)
    (n : String) :
    RepackArg.keepPack n ∈ add_repack_all_option pe keep ↔
      n ∈ keep.map basename := by
  unfold add_repack_all_option
  by_cases hp : pe = some "now"
  · simp [hp, List.mem_map]
  · cases pe with
    | none => simp [List.mem_map]
    | some e => simp [hp, List.mem_map]

/-- C2 counterexample: in `stateC2` the pack count (2) exceeds the limit
(1) and `gc.bigPackThreshold = 0`; the estimated working set is 2 and the
probed RAM 4, so `W * 2 > total_ram` is false, yet the largest local pack
is added to the keep list and `--keep-pack=big.pack` is queued — the
code's gate is `mem_want < mem_have / 2` (integer halving), not
`W * 2 > total_ram`. -/
theorem claim_C2_memory_gate_counterexample :
    too_many_packs stateC2 = true ∧
    stateC2.bigPackThreshold = 0 ∧
    (find_base_packs stateC2.packs 0).2 = some pBig ∧
    RepackArg.keepPack (basename pBig.name) ∈ (need_to_gc stateC2).2 ∧
    ¬(estimate_repack_memory stateC2 (some pBig) * 2 > stateC2.totalRam) := by
  decide

/-- C2 amended: in `need_to_gc`, when the pack count exceeds the limit
and `gc.bigPackThreshold` is 0, the largest local pack `P` is added to
the repack keep list (yielding a `--keep-pack` argument) exactly when the
RAM probe is nonzero and the estimated working set `W` satisfies
`W ≥ total_ram / 2` (integer halving); otherwise — in particular whenever
the probe returns 0 — the keep list is cleared and no `--keep-pack` is
queued. -/
theorem claim_C2_memory_gate_amended (s : GcState) (P : Pack)
    (hauto : 0 < s.gcAuto) (hpacks : too_many_packs s = true)
    (hbig : s.bigPackThreshold = 0)
    (hbase : (find_base_packs s.packs 0).2 = some P) :
    (RepackArg.keepPack (basename P.name) ∈ (need_to_gc s).2 ↔
      (s.totalRam ≠ 0 ∧
        s.totalRam / 2 ≤ estimate_repack_memory s (some P))) ∧
    ((s.totalRam = 0 ∨
        estimate_repack_memory s (some P) < s.totalRam / 2) →
      ∀ n, RepackArg.keepPack n ∉ (need_to_gc s).2) := by
  have hna : ¬ s.gcAuto ≤ 0 := by omega
  have hargs : (need_to_gc s).2 =
      add_repack_all_option s.pruneExpire (need_to_gc_keep s) := by
    unfold need_to_gc
    simp only [hna, if_false, hpacks, if_true]
    by_cases hh : s.hookExit ≠ 0 <;> simp [hh]
  have hkeep : need_to_gc_keep s =
      if s.totalRam = 0 ∨
          estimate_repack_memory s (some P) < s.totalRam / 2
      then [] else [P.name] := by
    unfold need_to_gc_keep
    simp only [hbig, ne_eq, not_true_eq_false, reduceIte,
      not_false_eq_true]
    rw [find_base_keep_of_base s.packs P hbase, hbase]
  constructor
  · rw [hargs, keepPack_mem_add_repack, hkeep]
    by_cases hc : s.totalRam = 0 ∨
        estimate_repack_memory s (some P) < s.totalRam / 2
    · simp only [hc, if_true, List.map_nil, List.not_mem_nil,
        false_iff]
      intro hcon
      omega
    · simp only [hc, if_false, List.map_cons, List.map_nil,
        List.mem_singleton, true_iff]
      constructor
      · omega
      · omega
  · intro h0 n
    rw [hargs, keepPack_mem_add_repack, hkeep]
    simp [h0]

/-- C2 witness: the amended gate evaluated on `stateC2` (working set 2,
RAM 4): the `--keep-pack` argument is queued since `2 ≥ 4 / 2`. -/
theorem claim_C2_memory_gate_amended_witness :
    (0 < stateC2.gcAuto ∧ too_many_packs stateC2 = true ∧
     stateC2.bigPackThreshold = 0 ∧
     (find_base_packs stateC2.packs 0).2 = some pBig) ∧
    (RepackArg.keepPack (basename pBig.name) ∈ (need_to_gc stateC2).2 ↔
      (stateC2.totalRam ≠ 0 ∧
        stateC2.totalRam / 2 ≤ estimate_repack_memory stateC2 (some pBig))) :=
  ⟨by decide,
   (claim_C2_memory_gate_amended stateC2 pBig (by decide) (by decide)
      (by decide) (by decide)).1⟩

/-- helper: one step of the top-two tracking loop, written with
`max`/`min` (valid while the tracked second value is at most the max). -/
theorem top_two_step_eq (m s x : Nat) (h : s ≤ m) :
    top_two_step (m, s) x = (max m x, max s (min m x)) := by
  unfold top_two_step
  by_cases h1 : m < x
  · rw [if_pos h1]
    simp only [Prod.mk.injEq]
    constructor <;> omega
  · rw [if_neg h1]
    by_cases h2 : s < x
    · rw [if_pos h2]
      simp only [Prod.mk.injEq]
      constructor <;> omega
    · rw [if_neg h2]
      simp only [Prod.mk.injEq]
      constructor <;> omega

/-- helper: the fold of `get_auto_pack_size` computes the maximum and the
second-largest of the sizes joined with the seed pair. -/
theorem foldl_top_two (l : List Nat) :
    ∀ m s, s ≤ m →
      l.foldl top_two_step (m, s) =
        (max m (listMax l),
         max s (max (min m (listMax l)) (secondLargest l))) := by
  induction l with
  | nil =>
    intro m s _
    simp only [List.foldl_nil, listMax, List.foldr_nil, secondLargest,
      Prod.mk.injEq]
    constructor <;> omega
  | cons x xs ih =>
    intro m s h
    rw [List.foldl_cons, top_two_step_eq m s x h,
      ih (max m x) (max s (min m x)) (by omega)]
    have hl : listMax (x :: xs) = max x (listMax xs) := rfl
    have hs : secondLargest (x :: xs) =
        max (min x (listMax xs)) (secondLargest xs) := rfl
    rw [hl, hs]
    simp only [Prod.mk.injEq]
    constructor <;> omega

/-- helper: `get_auto_pack_size` is the second-largest size plus one,
capped at `TWO_GIGABYTES`. -/
theorem get_auto_pack_size_eq (l : List Nat) :
    get_auto_pack_size l = min (secondLargest l + 1) TWO_GIGABYTES := by
  unfold get_auto_pack_size
  rw [foldl_top_two l 0 0 (Nat.le_refl 0)]
  simp only
  split_ifs <;> omega

/-- helper: `listMax` only depends on the multiset of sizes. -/
theorem listMax_perm {l1 l2 : List Nat} (h : l1.Perm l2) :
    listMax l1 = listMax l2 := by
  induction h with
  | nil => rfl
  | cons x _ ih =>
    simp only [listMax, List.foldr_cons] at ih ⊢
    rw [ih]
  | swap x y l =>
    simp only [listMax, List.foldr_cons]
    omega
  | trans _ _ ih1 ih2 => exact ih1.trans ih2

/-- helper: `secondLargest` only depends on the multiset of sizes. -/
theorem secondLargest_perm {l1 l2 : List Nat} (h : l1.Perm l2) :
    secondLargest l1 = secondLargest l2 := by
  induction h with
  | nil => rfl
  | cons x hp ih =>
    show max (min x (listMax _)) (secondLargest _) =
      max (min x (listMax _)) (secondLargest _)
    rw [ih, listMax_perm hp]
  | swap x y l =>
    show max (min y (listMax (x :: l)))
        (max (min x (listMax l)) (secondLargest l)) =
      max (min x (listMax (y :: l)))
        (max (min y (listMax l)) (secondLargest l))
    have h1 : listMax (x :: l) = max x (listMax l) := rfl
    have h2 : listMax (y :: l) = max y (listMax l) := rfl
    rw [h1, h2]
    omega
  | trans _ _ ih1 ih2 => exact ih1.trans ih2

/-- C4: for every multiset of pack sizes, `get_auto_pack_size` returns
the second-largest pack size plus one, capped at 2 GiB − 1 (2147483647):
the result is the capped successor of `secondLargest`, it is invariant
under permutation of the sizes, two packs of 1 GiB and 100 MiB give
100 MiB + 1, and packs of 3 GiB and 2.5 GiB give exactly 2147483647. -/
theorem claim_C4_auto_pack_size :
    (∀ l : List Nat,
      get_auto_pack_size l = min (secondLargest l + 1) TWO_GIGABYTES) ∧
    (∀ l1 l2 : List Nat, l1.Perm l2 →
      get_auto_pack_size l1 = get_auto_pack_size l2) ∧
    get_auto_pack_size [1073741824, 104857600] = 104857600 + 1 ∧
    get_auto_pack_size [3221225472, 2684354560] = 2147483647 := by
  refine ⟨get_auto_pack_size_eq, ?_, by decide, by decide⟩
  intro l1 l2 h
  rw [get_auto_pack_size_eq, get_auto_pack_size_eq, secondLargest_perm h]

/-- C4 witness: the permutation invariance applied to the 1 GiB/100 MiB
example in both orders. -/
theorem claim_C4_auto_pack_size_witness :
    ([1073741824, 104857600] : List Nat).Perm [104857600, 1073741824] ∧
    get_auto_pack_size [1073741824, 104857600] =
      get_auto_pack_size [104857600, 1073741824] :=
  ⟨by decide, claim_C4_auto_pack_size.2.1 _ _ (by decide)⟩

/-- helper: membership in a selection-sort insertion. -/
theorem mem_insert_by_selection {x t : MTask} {l : List MTask} :
    x ∈ insert_by_selection t l ↔ x = t ∨ x ∈ l := by
  induction l with
  | nil => simp [insert_by_selection]
  | cons y ys ih =>
    unfold insert_by_selection
    by_cases hc : compare_tasks_by_selection t y ≤ 0
    · simp [hc]
    · simp only [hc, if_false, List.mem_cons, ih]
      tauto

/-- helper: sorting by selection does not change the set of tasks. -/
theorem mem_sort_tasks {x : MTask} {ts : List MTask} :
    x ∈ sort_tasks ts ↔ x ∈ ts := by
  induction ts with
  | nil => simp [sort_tasks]
  | cons t rest ih =>
    have : sort_tasks (t :: rest) = insert_by_selection t (sort_tasks rest) :=
      rfl
    rw [this, mem_insert_by_selection, ih, List.mem_cons]

/-- helper: under `--auto` the run loop never executes a task all of
whose homonyms in the list lack an `auto_condition`. -/
theorem loop_skips_auto_none (selMode : Bool) (f : String → Int)
    (name : String) :
    ∀ ts : List MTask, (∀ t ∈ ts, t.name = name → t.auto = none) →
      name ∉ (maintenance_run_loop true selMode f ts).2 := by
  intro ts
  induction ts with
  | nil =>
    intro _
    simp [maintenance_run_loop]
  | cons t rest ih =>
    intro h
    have hrest : ∀ u ∈ rest, u.name = name → u.auto = none :=
      fun u hu => h u (List.mem_cons_of_mem _ hu)
    unfold maintenance_run_loop
    by_cases hs : task_skipped true selMode t = true
    · rw [if_pos hs]
      exact ih hrest
    · rw [if_neg hs]
      have hname : t.name ≠ name := by
        intro hcon
        have hauto := h t (List.mem_cons_self t rest) hcon
        apply hs
        unfold task_skipped
        simp [hauto]
      by_cases hr : f t.name ≠ 0
      · rw [if_pos hr]
        simp only [List.mem_singleton]
        exact fun hcon => hname hcon.symm
      · rw [if_neg hr]
        simp only [List.mem_cons]
        intro hcon
        rcases hcon with hcon | hcon
        · exact hname hcon.symm
        · exact ih hrest hcon

/-- helper: one `--task` parse step only rewrites `selected` and
`task_order`; every task in the output has a task of the same name and
the same `auto_condition` in the input. -/
theorem task_option_parse_preserves {ts : List MTask} {c : Nat}
    {a : String} {ts1 : List MTask} {c1 : Nat}
    (hp : task_option_parse ts c a = some (ts1, c1)) :
    ∀ v ∈ ts1, ∃ t ∈ ts, v.name = t.name ∧ v.auto = t.auto := by
  unfold task_option_parse at hp
  split at hp
  · cases hp
  · split at hp
    · cases hp
    · split at hp
      · cases hp
      · rename_i t heq hsel
        simp only [Option.some.injEq, Prod.mk.injEq] at hp
        obtain ⟨h1, _⟩ := hp
        intro v hv
        rw [← h1] at hv
        obtain ⟨w, hw, hwv⟩ := List.mem_map.1 hv
        refine ⟨w, hw, ?_, ?_⟩ <;>
          · rw [← hwv]
            by_cases hn : w.name = t.name <;> simp [hn]

/-- helper: `--task` parsing as a whole preserves names and
auto-conditions. -/
theorem parse_task_options_preserves (args : List String) :
    ∀ (ts : List MTask) (c : Nat) (ts' : List MTask) (c' : Nat),
      parse_task_options ts c args = some (ts', c') →
      ∀ v ∈ ts', ∃ t ∈ ts, v.name = t.name ∧ v.auto = t.auto := by
  induction args with
  | nil =>
    intro ts c ts' c' h v hv
    simp only [parse_task_options, Option.some.injEq, Prod.mk.injEq] at h
    obtain ⟨h1, _⟩ := h
    exact ⟨v, h1 ▸ hv, rfl, rfl⟩
  | cons a rest ih =>
    intro ts c ts' c' h v hv
    unfold parse_task_options at h
    cases hp : task_option_parse ts c a with
    | none => rw [hp] at h; cases h
    | some p =>
      rw [hp] at h
      obtain ⟨t1, ht1, hn, ha⟩ := ih p.1 p.2 ts' c' h v hv
      obtain ⟨t0, ht0, hn0, ha0⟩ := task_option_parse_preserves hp t1 ht1
      exact ⟨t0, ht0, hn.trans hn0, ha.trans ha0⟩

/-- helper: in the initial task table only the `fetch` task is called
`fetch`, and it has no `auto_condition`. -/
theorem init_tasks_fetch_auto (cfg : String → Option Bool)
    (aL aP aG aC : Bool) :
    ∀ t ∈ init_tasks cfg aL aP aG aC, t.name = "fetch" → t.auto = none := by
  intro t ht hn
  simp only [init_tasks, List.mem_cons, List.not_mem_nil, or_false] at ht
  rcases ht with h | h | h | h | h <;> subst h <;> simp_all

/-- C9: under `maintenance run --auto`, a task whose record has no
`auto_condition` function is always skipped — whether it is reached via
`--task` selection (any selection counter, any sorted order) or via its
`enabled` bit — and in particular the `fetch` task never executes under
`--auto`: not with any `maintenance.<task>.enabled` configuration, and
not after any successful `--task` command line. -/
theorem claim_C9_auto_skips_conditionless :
    (∀ (sel : Nat) (f : String → Int) (ts : List MTask) (name : String),
      (∀ t ∈ ts, t.name = name → t.auto = none) →
      name ∉ (maintenance_run true sel f ts).2) ∧
    (∀ (cfg : String → Option Bool) (aL aP aG aC : Bool)
       (args : List String) (ts' : List MTask) (n : Nat)
       (f : String → Int),
      parse_task_options (init_tasks cfg aL aP aG aC) 0 args =
        some (ts', n) →
      "fetch" ∉ (maintenance_run true n f ts').2) ∧
    (∀ (cfg : String → Option Bool) (aL aP aG aC : Bool)
       (f : String → Int),
      "fetch" ∉ (maintenance_run true 0 f (init_tasks cfg aL aP aG aC)).2) := by
  have hA : ∀ (sel : Nat) (f : String → Int) (ts : List MTask)
      (name : String),
      (∀ t ∈ ts, t.name = name → t.auto = none) →
      name ∉ (maintenance_run true sel f ts).2 := by
    intro sel f ts name h
    unfold maintenance_run
    by_cases hsel : sel ≠ 0
    · rw [if_pos hsel]
      exact loop_skips_auto_none _ f name (sort_tasks ts)
        (fun t ht => h t (mem_sort_tasks.1 ht))
    · rw [if_neg hsel]
      exact loop_skips_auto_none _ f name ts h
  refine ⟨hA, ?_, ?_⟩
  · intro cfg aL aP aG aC args ts' n f hp
    refine hA n f ts' "fetch" ?_
    intro t ht hn
    obtain ⟨t0, ht0, hn0, ha0⟩ :=
      parse_task_options_preserves args _ 0 ts' n hp t ht
    rw [ha0]
    exact init_tasks_fetch_auto cfg aL aP aG aC t0 ht0 (hn0 ▸ hn)
  · intro cfg aL aP aG aC f
    exact hA 0 f _ "fetch" (init_tasks_fetch_auto cfg aL aP aG aC)

/-- C9 witness: `maintenance run --auto --task fetch` (gc's condition
true) does not execute fetch. -/
theorem claim_C9_auto_skips_conditionless_witness :
    parse_task_options (init_tasks (fun _ => none) false false false true)
      0 ["fetch"] = some (selFetchC9.1, selFetchC9.2) ∧
    "fetch" ∉
      (maintenance_run true selFetchC9.2 (fun _ => 0) selFetchC9.1).2 :=
  ⟨by decide,
   claim_C9_auto_skips_conditionless.2.1 (fun _ => none) false false false
     true ["fetch"] selFetchC9.1 selFetchC9.2 (fun _ => 0) (by decide)⟩

/-- C1 (code behaviour at the failing input): a repeated `--task` name is
indeed a usage error (`--task gc --task gc` aborts the option parse), and
`--task loose-objects --task gc` parses with ordinals 1 and 2 — but the
run then executes `gc` *before* `loose-objects`: the qsort comparator
orders the ordinals descending, so the tasks run in reverse selection
order, contradicting the claimed selection order. -/
theorem claim_C1_selection_order :
    parse_task_options tasksC1 0 ["gc", "gc"] = none ∧
    (parse_task_options tasksC1 0 ["loose-objects", "gc"]).isSome = true ∧
    selC1.2 = 2 ∧
    (maintenance_run false selC1.2 (fun _ => 0) selC1.1).2 =
      ["gc", "loose-objects"] := by
  decide

set_option maxRecDepth 8000 in
/-- C5 witness: the probe characterization instantiated on the 260-entry
bucket listing with `gc.auto = 6700`. -/
theorem claim_C5_loose_probe_witness :
    too_many_loose_objects (some entries260) 6700 38 = true ↔
      ((6700 : Int).toNat + 255) / 256 <
        entries260.countP (looseMatch 38) :=
  claim_C5_loose_probe.1 entries260 6700 38
